import Mathlib

/-!
Verification development for the cms-module-client editor.

The repository ships several revisions of the same module side by side:

* `src/src/index.js` holds two revisions of the `CMS` class (the second one
  short-circuits its dirty checks), both sharing `src/src/lib/util.js`;
* `src/index.js` is an older, self-contained revision of the class;
* `src/unnamed/part_000` is an early standalone revision, and
  `src/unnamed/part_001` is the utility module used by the second revision
  in `src/src/index.js` (it exports `getMetaInfo`).

Each JavaScript function modelled below names the file and lines it was
translated from.  DOM documents are modelled as a type of node identifiers
(`Nat`) together with attribute and parent/children maps, so that malformed
parent chains (cycles, null parents) are expressible.  Fallible JavaScript
behaviour (returning `undefined`, throwing a `TypeError`) is modelled with
`Option`; comments at each definition state which `none` stands for what.
-/

/-- JS `String.prototype.split` with a single-character separator, as used by
`reverseStr` in `src/index.js` (`reverseStr(path, " ")`).  Splitting `"a b "`
on `' '` yields `["a", "b", ""]`, exactly like JavaScript. -/
def jsSplit (sep : Char) (s : String) : List String :=
  let r := s.data.foldl
    (fun (acc : List String × List Char) c =>
      if c = sep then (acc.1 ++ [String.mk acc.2.reverse], []) else (acc.1, c :: acc.2))
    ([], [])
  r.1 ++ [String.mk r.2.reverse]

/-- JS `Array.prototype.join` with a separator string. -/
def jsJoin (sep : String) : List String → String
  | [] => ""
  | [s] => s
  | s :: rest => s ++ sep ++ jsJoin sep rest

/-- JS `String.prototype.trim`; the strings produced by the selector builders
only ever carry ordinary spaces, so trimming spaces is exact here. -/
def jsTrim (s : String) : String :=
  String.mk (((s.data.dropWhile (· = ' ')).reverse.dropWhile (· = ' ')).reverse)

/-- `reverseStr` from `src/index.js` lines 942-947: split on the separator,
reverse, join.  It is only ever invoked with the single-space separator. -/
def reverseStr (str : String) : String :=
  jsJoin " " (jsSplit ' ' str).reverse

/-- JS `String.prototype.toLowerCase` restricted to the ASCII keys produced by
keyboard events. -/
def jsToLower (s : String) : String :=
  String.mk (s.data.map Char.toLower)

/-- A document: nodes are identifiers, and the record gives each node's
attributes and tree links.  `parent v = none` models a `null` `parentNode`.
Nothing forces the parent map to be acyclic, so cyclic or otherwise
malformed parent chains are expressible. -/
structure Doc where
  localName : Nat → String
  id : Nat → String
  classes : Nat → List String
  parent : Nat → Option Nat
  children : Nat → List Nat
  innerHTML : Nat → String

namespace IndexJs

/-- `getSelector` from `src/index.js` lines 922-940: tag name, then `#id` if
present, else the class list joined with dots after removing the first
occurrence of the transient `"cms-input-field"` marker class.  `none` models
the JS `return undefined` taken when `localName` is falsy. -/
def getSelector (d : Doc) (el : Nat) : Option String :=
  let selector := d.localName el
  if selector = "" then none
  else
    let classList := (d.classes el).erase "cms-input-field"
    let selector2 :=
      if d.id el ≠ "" then selector ++ "#" ++ d.id el
      else if classList.length > 0 then selector ++ "." ++ jsJoin "." classList
      else selector
    some (selector2 ++ " ")

/-- The parent-climbing `while` loop of `getSelectorPath`
(`src/index.js` lines 904-917) with its `if(i > 50) break` guard.
The JS loop counter `i` starts at 0 and the loop breaks after appending when
`i > 50`; here `n` stands for `51 - i`, so the recursion is structural.
The result pairs the JS outcome with the number of loop iterations executed:
`(none, k)` models the `TypeError` thrown when a `null` parent's `localName`
is read, `(some path, k)` the accumulated path.  When `getSelector` of a
parent is `undefined`, JS `+=` stringifies it, appending `"undefined"`. -/
def pathClimbAux (d : Doc) : Nat → Option Nat → String → Option String × Nat
  | _, none, _ => (none, 0)
  | n, some p, path =>
    if d.localName p = "body" then (some path, 0)
    else
      let path2 := path ++ (match getSelector d p with | some s => s | none => "undefined")
      let parent2 := d.parent p
      match n with
      | 0 => (some path2, 1)
      | m + 1 =>
        let r := pathClimbAux d m parent2 path2
        (r.1, r.2 + 1)

/-- The climb entered with `i = 0`, i.e. `n = 51`. -/
def pathClimb (d : Doc) (parent : Option Nat) (path : String) : Option String × Nat :=
  pathClimbAux d 51 parent path

/-- `getSelectorPath` from `src/index.js` lines 886-920.  Outer `none` models
a thrown `TypeError` (`el.parentNode.children` with a `null` parent, or
`.trim()` on an `undefined` selector, or the climb hitting a `null` parent);
`some none` models the JS `return undefined` for an `html` element;
`some (some s)` is the computed path. -/
def getSelectorPath (d : Doc) (el : Nat) : Option (Option String) :=
  match d.parent el with
  | none => none
  | some par =>
    let children := d.children par
    let nthChild := children.enum.foldl (fun acc x => if x.2 = el then x.1 + 1 else acc) 0
    match getSelector d el with
    | none => none
    | some sel0 =>
      let path0 := jsTrim sel0 ++ ":nth-child(" ++ toString nthChild ++ ") "
      if d.localName el = "html" then some none
      else
        match (pathClimb d (some par) path0).1 with
        | none => none
        | some path => some (some (jsTrim (reverseStr path)))

end IndexJs

namespace UtilJs

/-- `getSelector` from `src/src/lib/util.js` lines 47-65, abstracted over the
three attributes it reads from the element.  The class list is spliced at the
first occurrence of the transient `"cms-editable"` marker class before being
joined.  `none` models `return undefined` for a falsy `localName`. -/
def getSelector (localName idAttr : String) (classList : List String) : Option String :=
  if localName = "" then none
  else
    let cl := classList.erase "cms-editable"
    let selector :=
      if idAttr ≠ "" then localName ++ "#" ++ idAttr
      else if cl.length > 0 then localName ++ "." ++ jsJoin "." cl
      else localName
    some (selector ++ " ")

end UtilJs

namespace Part000

/-- `getSelector` from `src/unnamed/part_000` lines 554-567.  Unlike the other
revisions it does not splice the marker class out: the class branch is taken
only when the element does NOT carry `"cms-input-field"`, so a marked element
contributes no classes at all to its selector.  `className.split(" ").join(".")`
is modelled as joining the class list with dots (class names carry no
spaces). -/
def getSelector (localName idAttr : String) (classList : List String) : Option String :=
  if localName = "" then none
  else
    let selector :=
      if idAttr ≠ "" then localName ++ "#" ++ idAttr
      else if classList.length > 0 && !(classList.contains "cms-input-field") then
        localName ++ "." ++ jsJoin "." classList
      else localName
    some (selector ++ " ")

end Part000

namespace Part001

/-- `getSelector` from `src/unnamed/part_001` lines 49-81: `#id` short-circuits,
otherwise classes (with the first `"cms-editable"` spliced out) and a
positional `:nth-child` disambiguator when same-named siblings require one.
`findSiblings` reads `el.parentNode.children`; a `null` parent (which would
throw in JS) is modelled as an empty sibling list and is never exercised by
the documents considered here. -/
def getSelector (d : Doc) (el : Nat) : String :=
  let localName := d.localName el
  let classList := (d.classes el).erase "cms-editable"
  if d.id el ≠ "" then localName ++ "#" ++ d.id el
  else
    let selector :=
      if classList.length > 0 then localName ++ "." ++ jsJoin "." classList
      else localName
    let siblings := match d.parent el with | some par => d.children par | none => []
    let sameName := siblings.filter (fun sb => d.localName sb = localName)
    let nthChild := match siblings.findIdx? (fun sb => sb = el) with
      | some j => j + 1
      | none => 0
    if nthChild > 1 ∧ sameName.length > 1 then
      selector ++ ":nth-child(" ++ toString nthChild ++ ")"
    else selector

/-- The parent-climbing `while` loop of `getSelectorPath` in
`src/unnamed/part_001` lines 35-40.  This revision has NO iteration cap, so
the loop is modelled with explicit fuel: `none` means the loop is still
running when the fuel runs out (or, for a `none` parent, that JS threw a
`TypeError`); `some path` means the loop reached the `body` exit. -/
def climb (d : Doc) : Nat → Option Nat → String → Option String
  | 0, _, _ => none
  | _ + 1, none, _ => none
  | fuel + 1, some p, path =>
    if d.localName p = "body" then some path
    else climb d fuel (d.parent p) (getSelector d p ++ " " ++ path)

/-- `getSelectorPath` from `src/unnamed/part_001` lines 22-43, with the fuel
of `Part001.climb` exposed.  `none` is `undefined` (an `html` element) or a
climb that has not finished within the fuel. -/
def getSelectorPath (d : Doc) (fuel el : Nat) : Option String :=
  if d.localName el = "html" then none
  else climb d fuel (d.parent el) (getSelector d el)

/-- The `while` climb of `getTopParent` in `src/unnamed/part_001`
lines 140-144: it visits the node and every ancestor strictly below `body`,
`unshift`-ing each, so the resulting list runs from the outermost ancestor
down to the start node.  Fuel-bounded; a `null` parent (a JS `TypeError`)
ends the chain. -/
def climbChain (d : Doc) : Nat → Nat → List Nat
  | 0, _ => []
  | fuel + 1, cur =>
    if d.localName cur = "body" then []
    else match d.parent cur with
      | none => [cur]
      | some par => climbChain d fuel par ++ [cur]

/-- `getTopParent` from `src/unnamed/part_001` lines 134-153: the first
element of the collected chain (outermost first) whose tag is in `tags`.
JS returns `undefined` when nothing matches; the callers modelled here only
ever pass nodes whose own tag is editable, so the fallback to `el` that
totalises the function is never exercised. -/
def getTopParent (d : Doc) (tags : List String) (fuel el : Nat) : Nat :=
  match (climbChain d fuel el).find? (fun v => tags.contains (d.localName v)) with
  | some v => v
  | none => el

end Part001

/-- The default editable tags of the `CMS` constructor
(`src/src/index.js` line 641, `src/index.js` lines 28-39). -/
def defaultTags : List String :=
  ["a", "p", "h1", "h2", "h3", "h4", "h5", "h6", "ul", "ol"]

/-- One registry record, as pushed by `run()`.  The `src/index.js` revision's
records carry no `element` reference; for them the field is unused (set to
0 by the constructions below). -/
structure Section where
  original_text : String
  edited_text : String
  saved_text : String
  element : Nat
  path : String
  page : String
deriving DecidableEq

/-- `findSection` from `src/src/lib/util.js` lines 72-76: first section whose
element matches; `none` models the JS `undefined` fall-through. -/
def findSection (element : Nat) : List Section → Option Section
  | [] => none
  | s :: rest => if s.element = element then some s else findSection element rest

/-- `findChangedSections` from `src/src/lib/util.js` lines 78-86: the sections
whose `edited_text` differs from `saved_text`, in order. -/
def findChangedSections : List Section → List Section
  | [] => []
  | s :: rest =>
    if s.edited_text ≠ s.saved_text then s :: findChangedSections rest
    else findChangedSections rest

/-- `_changedSinceSave` from `src/src/index.js` lines 235-243 (first revision)
and `src/index.js` lines 342-351: true iff some section's `edited_text`
differs from its `saved_text`. -/
def changedSinceSave : List Section → Bool
  | [] => false
  | s :: rest => if s.edited_text ≠ s.saved_text then true else changedSinceSave rest

/-- `_changedSinceSave` from `src/src/index.js` lines 865-875 (second
revision): the real check is commented out and the function returns `true`
unconditionally. -/
def changedSinceSaveAlways (_sections : List Section) : Bool :=
  true

/-- `_changedSincePublish` from `src/src/index.js` lines 199-207 (first
revision) and `src/index.js` lines 375-384: true iff some section's
`saved_text` differs from its `original_text`. -/
def changedSincePublish : List Section → Bool
  | [] => false
  | s :: rest => if s.saved_text ≠ s.original_text then true else changedSincePublish rest

/-- `_setSaved` from `src/src/index.js` lines 245-259: for every section,
every changed section with the same element overwrites its `saved_text` with
that changed section's `edited_text` (the last match wins, as in the JS
`forEach`). -/
def setSaved (changed sections : List Section) : List Section :=
  sections.map (fun s =>
    { s with saved_text :=
        (changed.foldl (fun acc c => if c.element = s.element then c.edited_text else acc)
          s.saved_text) })

/-- `_setPublished` from `src/src/index.js` lines 209-216: promote
`saved_text` to `original_text` for every section of the registry. -/
def setPublished (sections : List Section) : List Section :=
  sections.map (fun s => { s with original_text := s.saved_text })

/-- `_findSectionByPath` from `src/index.js` lines 514-523: scans the whole
list, overwriting the result at every match, hence returns the LAST section
with the given path; `none` models the JS `null` sentinel. -/
def findSectionByPath (sections : List Section) (path : String) : Option Section :=
  sections.foldl (fun result s => if s.path = path then some s else result) none

/-- Updates the section `_findSectionByPath` would return (the last one with
the given path), leaving the rest alone; used to model the mutations in
`_setSavedChanges` / `_setPublishedChanges` of `src/index.js`.  When no
section matches, JS would throw on `null`; the model leaves the list
unchanged, and that case is not exercised below. -/
def updateLastByPath (p : String) (f : Section → Section) : List Section → List Section
  | [] => []
  | s :: rest =>
    if rest.any (fun t => t.path = p) then s :: updateLastByPath p f rest
    else if s.path = p then f s :: rest
    else s :: rest

/-- A section of a server response body (`result.sections`), as consumed by
`_setSavedChanges` / `_setPublishedChanges` in `src/index.js`. -/
structure RespSection where
  content : String
  path : String
deriving DecidableEq

/-- `_setSavedChanges` from `src/index.js` lines 576-587: for each response
section, the local section found by path gets both `saved_text` and
`edited_text` overwritten with the response content. -/
def setSavedChanges (resp : List RespSection) (sections : List Section) : List Section :=
  resp.foldl
    (fun secs r =>
      updateLastByPath r.path
        (fun s => { s with saved_text := r.content, edited_text := r.content }) secs)
    sections

/-- `_setPublishedChanges` from `src/index.js` lines 589-600: for each
response section, the local section found by path gets `saved_text` and
`original_text` overwritten with the response content. -/
def setPublishedChanges (resp : List RespSection) (sections : List Section) : List Section :=
  resp.foldl
    (fun secs r =>
      updateLastByPath r.path
        (fun s => { s with saved_text := r.content, original_text := r.content }) secs)
    sections

/-- The registry-visible outcome of a `save()`/`publish()` call: the registry
afterwards, whether a network request was issued, and whether the error path
(`_error`, a log/emit) ran. -/
structure SaveOutcome where
  sections : List Section
  fetched : Bool
  errored : Bool
deriving DecidableEq

/-- `save()` from `src/src/index.js` lines 128-152 (first revision), as a
state machine over the registry; `ok` is `response.ok`.  No change since the
last save means an early return with no fetch; a failing response runs
`_error` and leaves the registry alone; a 2xx response applies `_setSaved`
to the changed subset. -/
def save (ok : Bool) (sections : List Section) : SaveOutcome :=
  if changedSinceSave sections = false then ⟨sections, false, false⟩
  else
    let changed := findChangedSections sections
    if ok then ⟨setSaved changed sections, true, false⟩
    else ⟨sections, true, true⟩

/-- `save()` from `src/src/index.js` lines 729-760 (second revision): the same
machine, but gated on the short-circuited `changedSinceSaveAlways`, so the
fetch is issued even when nothing changed. -/
def saveAlways (ok : Bool) (sections : List Section) : SaveOutcome :=
  if changedSinceSaveAlways sections = false then ⟨sections, false, false⟩
  else
    let changed := findChangedSections sections
    if ok then ⟨setSaved changed sections, true, false⟩
    else ⟨sections, true, true⟩

/-- `save()` from `src/index.js` lines 121-178.  Before the request it flushes
the live document into every section's `edited_text`
(`section.edited_text = document.querySelector(path).innerHTML`, lines
126-135); `dom` maps a selector path to that serialized content.  On a
failing response `_error` is emitted and the (already flushed) registry is
left as is; on success the server's `result.sections` are applied with
`_setSavedChanges`. -/
def saveOld (dom : String → String) (ok : Bool) (resp : List RespSection)
    (sections : List Section) : SaveOutcome :=
  if changedSinceSave sections = false then ⟨sections, false, false⟩
  else
    let flushed := sections.map (fun s => { s with edited_text := dom s.path })
    if ok then ⟨setSavedChanges resp flushed, true, false⟩
    else ⟨flushed, true, true⟩

/-- `publish()` from `src/src/index.js` lines 154-177 (first revision):
no-op when nothing changed since the last publish, otherwise one request;
on success `_setPublished` promotes the whole registry. -/
def publish (ok : Bool) (sections : List Section) : SaveOutcome :=
  if changedSincePublish sections = false then ⟨sections, false, false⟩
  else if ok then ⟨setPublished sections, true, false⟩
  else ⟨sections, true, true⟩

/-- `publish()` from `src/index.js` lines 183-227: gated on the real
changed-since-publish check, POSTs the subset filtered by
`original_text !== edited_text`, and on success applies
`_setPublishedChanges` then `_setSavedChanges` with the server's
`result.sections` (`resp`). -/
def publishOld (ok : Bool) (resp : List RespSection) (sections : List Section) : SaveOutcome :=
  if changedSincePublish sections = false then ⟨sections, false, false⟩
  else if ok then ⟨setSavedChanges resp (setPublishedChanges resp sections), true, false⟩
  else ⟨sections, true, true⟩

/-- The registry record built by `run()` in `src/src/index.js` lines 105-114
(first revision; the second revision, lines 702-713, builds the same record
for the resolved top parent): all three text fields are the element's
serialized content at registration time. -/
def mkCmsElement (innerHTML path page : String) (element : Nat) : Section :=
  { original_text := innerHTML
    edited_text := innerHTML
    saved_text := innerHTML
    element := element
    path := path
    page := page }

/-- The registry record built by `run()` in `src/index.js` lines 95-105:
`original_text` is the element's content but `edited_text` and `saved_text`
start as the empty string (these records carry no element reference; the
unused field is 0). -/
def mkCmsElementOld (innerHTML path page : String) : Section :=
  { original_text := innerHTML
    edited_text := ""
    saved_text := ""
    element := 0
    path := path
    page := page }

/-- The path stored for a node by the second-revision `run()`
(`src/src/index.js` line 710), computed by `Part001.getSelectorPath`;
the JS stores `undefined` when the path is undefined, collapsed here to
`""` (never exercised by the documents considered). -/
def part001PathOf (d : Doc) (el : Nat) : String :=
  (Part001.getSelectorPath d 100 el).getD ""

/-- `run()` from `src/src/index.js` lines 696-727 (second revision): the
discovered elements are reversed, each is resolved to its top editable
ancestor with `getTopParent`, and one record per discovered element is pushed
— there is no deduplication. -/
def runRegister (d : Doc) (page : String) (els : List Nat) : List Section :=
  els.reverse.map (fun element =>
    let el := Part001.getTopParent d defaultTags 100 element
    mkCmsElement (d.innerHTML el) (part001PathOf d el) page el)

/-- A keyboard shortcut entry of `this.shortcuts`
(`src/src/index.js` lines 53-85).  Entries without a `global` property are
falsy in JS; the default is `false`. -/
structure Shortcut where
  name : String
  combo : List String
  global : Bool := false
deriving DecidableEq

/-- `getShortcut` from `src/src/lib/util.js` lines 240-246: the first shortcut
whose combo, joined with spaces, equals the event combo joined with spaces;
`none` models the JS `false` sentinel. -/
def getShortcut (shortcuts : List Shortcut) (combo : List String) : Option Shortcut :=
  match shortcuts with
  | [] => none
  | sc :: rest =>
    if jsJoin " " sc.combo = jsJoin " " combo then some sc else getShortcut rest combo

/-- The fields of a `keydown` event read by `_handleShortcuts`:
`targetIsEditable` is `e.target.classList.contains("cms-editable")` and
`keyRepeat` is `e.repeat`. -/
structure KeyEvent where
  ctrlKey : Bool
  shiftKey : Bool
  altKey : Bool
  key : String
  targetIsEditable : Bool
  keyRepeat : Bool
deriving DecidableEq

/-- The combo `_handleShortcuts` builds (`src/src/index.js` lines 278-294):
held modifiers in the fixed order ctrl, shift, alt, then the lowercased
key. -/
def buildCombo (e : KeyEvent) : List String :=
  (if e.ctrlKey then ["ctrl"] else [])
    ++ (if e.shiftKey then ["shift"] else [])
    ++ (if e.altKey then ["alt"] else [])
    ++ [jsToLower e.key]

/-- What the dispatcher did with one event: which shortcut's action fired (if
any), and whether the event was consumed (`stopImmediatePropagation` +
`preventDefault`). -/
structure HandleResult where
  fired : Option Shortcut
  consumed : Bool
deriving DecidableEq

/-- `_handleShortcuts` from `src/src/index.js` lines 276-307: a looked-up
shortcut fires only when the target is editable or the shortcut is global;
the event is consumed before the key-held check, so repeats are consumed but
do not fire; a failed guard leaves the event completely alone. -/
def handleShortcuts (shortcuts : List Shortcut) (e : KeyEvent) : HandleResult :=
  match getShortcut shortcuts (buildCombo e) with
  | none => ⟨none, false⟩
  | some sc =>
    if e.targetIsEditable || sc.global then
      if e.keyRepeat then ⟨none, true⟩ else ⟨some sc, true⟩
    else ⟨none, false⟩

/-- A registry with two records sharing one element (as the second-revision
`run()` produces for nested editable tags): used against claim C1. -/
def dupElemA : Section :=
  { original_text := "o1", edited_text := "a", saved_text := "b"
    element := 0, path := "p1", page := "/" }

/-- The second record sharing `dupElemA`'s element; clean before the save. -/
def dupElemB : Section :=
  { original_text := "o2", edited_text := "c", saved_text := "c"
    element := 0, path := "p2", page := "/" }

/-- A registry record with distinct element 0 and a pending edit. -/
def wSecA : Section :=
  { original_text := "x", edited_text := "new", saved_text := "x"
    element := 0, path := "pa", page := "/" }

/-- A clean registry record with distinct element 1. -/
def wSecB : Section :=
  { original_text := "y", edited_text := "y", saved_text := "y"
    element := 1, path := "pb", page := "/" }

/-- A fully clean registry record (`edited_text = saved_text`). -/
def cleanSec : Section :=
  { original_text := "x", edited_text := "x", saved_text := "x"
    element := 0, path := "p", page := "/" }

/-- A save-dirty record used against the `src/index.js` failure path. -/
def dirtySec : Section :=
  { original_text := "o", edited_text := "a", saved_text := "b"
    element := 0, path := "p", page := "/" }

/-- A record that is publish-dirty (`saved_text != original_text`) but not in
the subset `src/index.js`'s `publish()` POSTs
(`original_text = edited_text`). -/
def pubCexSec : Section :=
  { original_text := "a", edited_text := "a", saved_text := "b"
    element := 0, path := "p", page := "/" }

/-- A publish-dirty record for exercising the first-revision `publish()`. -/
def pubSec : Section :=
  { original_text := "y", edited_text := "e", saved_text := "x"
    element := 0, path := "p", page := "/" }

/-- `pubSec` after `_setPublished` promoted `saved_text`. -/
def pubSecDone : Section :=
  { original_text := "x", edited_text := "e", saved_text := "x"
    element := 0, path := "p", page := "/" }

/-- A document whose node 0 is its own parent: a cyclic parent chain that
never reaches `body`.  Node 1 (`p`) is the climb's start. -/
def cycDoc : Doc :=
  { localName := fun n => if n = 0 then "div" else "p"
    id := fun _ => ""
    classes := fun _ => []
    parent := fun _ => some 0
    children := fun _ => [0]
    innerHTML := fun _ => "" }

/-- A document with `body`(0) containing `p`(1) containing `a`(2): two
discovered editable elements that resolve to the same top editable
ancestor. -/
def nestedDoc : Doc :=
  { localName := fun n => if n = 0 then "body" else if n = 1 then "p" else "a"
    id := fun _ => ""
    classes := fun _ => []
    parent := fun n => if n = 1 then some 0 else if n = 2 then some 1 else none
    children := fun n => if n = 0 then [1] else if n = 1 then [2] else []
    innerHTML := fun n => if n = 1 then "<a>hi</a>" else if n = 2 then "hi" else "" }

/-- A document with `body`(0) containing `p`(1) and `h1`(2): two discovered
elements with distinct top ancestors and distinct paths. -/
def twoDoc : Doc :=
  { localName := fun n => if n = 0 then "body" else if n = 1 then "p" else "h1"
    id := fun _ => ""
    classes := fun _ => []
    parent := fun n => if n = 1 then some 0 else if n = 2 then some 0 else none
    children := fun n => if n = 0 then [1, 2] else []
    innerHTML := fun n => if n = 1 then "one" else if n = 2 then "two" else "" }

/-- A document whose node 1 carries the class `hero` (no marker class);
`body`(0) is its parent. -/
def wDocPlain : Doc :=
  { localName := fun n => if n = 0 then "body" else "h1"
    id := fun _ => ""
    classes := fun n => if n = 1 then ["hero"] else []
    parent := fun n => if n = 1 then some 0 else none
    children := fun n => if n = 0 then [1] else []
    innerHTML := fun _ => "" }

/-- The same document while node 1 is being edited: `classList.add` appended
the `"cms-input-field"` marker class. -/
def wDocMarked : Doc :=
  { localName := fun n => if n = 0 then "body" else "h1"
    id := fun _ => ""
    classes := fun n => if n = 1 then ["hero", "cms-input-field"] else []
    parent := fun n => if n = 1 then some 0 else none
    children := fun n => if n = 0 then [1] else []
    innerHTML := fun _ => "" }

/-- The non-global bold shortcut (`src/src/index.js` lines 61-64 with the
`en` locale combo). -/
def boldSc : Shortcut :=
  { name := "bold", combo := ["ctrl", "b"], global := false }

/-- ctrl+b pressed with the focus target outside any editable region. -/
def ebOutside : KeyEvent :=
  { ctrlKey := true, shiftKey := false, altKey := false
    key := "b", targetIsEditable := false, keyRepeat := false }

/-- ctrl+b pressed inside an active editable region. -/
def ebInside : KeyEvent :=
  { ctrlKey := true, shiftKey := false, altKey := false
    key := "b", targetIsEditable := true, keyRepeat := false }

/-- Two registry records sharing element 5 and path `"p"` but with different
content: the duplicate situation of claim C10. -/
def secA : Section :=
  { original_text := "o1", edited_text := "e1", saved_text := "s1"
    element := 5, path := "p", page := "/" }

/-- The second record sharing `secA`'s element and path. -/
def secB : Section :=
  { original_text := "o2", edited_text := "e2", saved_text := "s2"
    element := 5, path := "p", page := "/" }

/-! ## Helper lemmas -/

/-- `findChangedSections` is exactly the filter by `edited_text != saved_text`. -/
theorem findChanged_eq_filter :
    ∀ l : List Section,
      findChangedSections l = l.filter (fun s => s.edited_text ≠ s.saved_text) := by
  intro l
  induction l with
  | nil => rfl
  | cons s rest ih =>
    by_cases h : s.edited_text = s.saved_text <;>
      simp [findChangedSections, List.filter_cons, h, ih]

/-- When `_changedSinceSave` reports no change, the changed subset is empty. -/
theorem changedSinceSave_eq_false :
    ∀ {l : List Section}, changedSinceSave l = false → findChangedSections l = [] := by
  intro l
  induction l with
  | nil => intro _; rfl
  | cons s rest ih =>
    intro h
    by_cases hs : s.edited_text = s.saved_text
    · have h2 : changedSinceSave rest = false := by
        simpa [changedSinceSave, hs] using h
      simp [findChangedSections, hs, ih h2]
    · simp [changedSinceSave, hs] at h

/-- In a list with pairwise-distinct elements, equal elements force equal
sections. -/
theorem pairwise_mem_eq {l : List Section}
    (h : l.Pairwise (fun a b => a.element ≠ b.element)) :
    ∀ a ∈ l, ∀ b ∈ l, a.element = b.element → a = b := by
  induction l with
  | nil => simp
  | cons x xs ih =>
    intro a ha b hb he
    rcases List.mem_cons.mp ha with rfl | ha2 <;> rcases List.mem_cons.mp hb with rfl | hb2
    · rfl
    · exact absurd he ((List.pairwise_cons.mp h).1 b hb2)
    · exact absurd he.symm ((List.pairwise_cons.mp h).1 a ha2)
    · exact ih (List.pairwise_cons.mp h).2 a ha2 b hb2 he

/-- The `forEach` of `_setSaved`: when every element-matching changed section
shares `s`'s `edited_text`, the fold yields that text iff some changed
section matches. -/
theorem saved_foldl (s : Section) :
    ∀ (changed : List Section) (base : String),
      (∀ c ∈ changed, c.element = s.element → c.edited_text = s.edited_text) →
      changed.foldl (fun acc c => if c.element = s.element then c.edited_text else acc) base
        = if changed.any (fun c => c.element = s.element) then s.edited_text else base := by
  intro changed
  induction changed with
  | nil => intro base _; simp
  | cons c rest ih =>
    intro base h
    have hcr : ∀ x ∈ rest, x.element = s.element → x.edited_text = s.edited_text :=
      fun x hx => h x (List.mem_cons_of_mem _ hx)
    by_cases hc : c.element = s.element
    · have hce : c.edited_text = s.edited_text := h c (List.mem_cons_self _ _) hc
      simp only [List.foldl_cons, if_pos hc, List.any_cons]
      rw [ih c.edited_text hcr]
      rcases Bool.eq_false_or_eq_true (rest.any (fun x => x.element = s.element)) with hr | hr <;>
        simp [hr, hc, hce]
    · simp only [List.foldl_cons, if_neg hc, List.any_cons]
      rw [ih base hcr]
      simp [hc]

/-- After `_setSaved` of the changed subset, every section of a
duplicate-free registry is clean for save. -/
theorem setSaved_clean (sections : List Section)
    (hdist : ∀ a ∈ sections, ∀ b ∈ sections, a.element = b.element → a = b) :
    ∀ s2 ∈ setSaved (findChangedSections sections) sections,
      s2.edited_text = s2.saved_text := by
  intro s2 hs2
  rw [setSaved] at hs2
  rcases List.mem_map.mp hs2 with ⟨s, hs, rfl⟩
  dsimp only
  have hmc : ∀ c ∈ findChangedSections sections,
      c.element = s.element → c.edited_text = s.edited_text := by
    intro c hcmem hce
    have hcs : c ∈ sections := by
      rw [findChanged_eq_filter] at hcmem
      exact List.mem_of_mem_filter hcmem
    rw [hdist c hcs s hs hce]
  rw [saved_foldl s _ s.saved_text hmc]
  by_cases hany : (findChangedSections sections).any (fun c => c.element = s.element) = true
  · rw [if_pos hany]
  · have hclean : s.edited_text = s.saved_text := by
      by_contra hne
      have hsmem : s ∈ findChangedSections sections := by
        rw [findChanged_eq_filter]
        exact List.mem_filter.mpr ⟨hs, by simpa using hne⟩
      exact hany (List.any_eq_true.mpr ⟨s, hsmem, by simp⟩)
    rw [if_neg hany]
    exact hclean

/-- `_changedSincePublish` is `false` exactly when every section has
`saved_text = original_text`. -/
theorem changedSincePublish_eq_false :
    ∀ l : List Section,
      changedSincePublish l = false ↔ ∀ s ∈ l, s.saved_text = s.original_text := by
  intro l
  induction l with
  | nil => simp [changedSincePublish]
  | cons s rest ih =>
    by_cases hs : s.saved_text = s.original_text <;>
      simp [changedSincePublish, hs, ih]

/-! ## Claims C1-C5: dirty tracking and the save/publish machines -/

/-- C1 (amended): `findChangedSections` returns exactly the sections with
`edited_text != saved_text`; and provided the registry's sections carry
pairwise-distinct elements, a successful `save()` leaves the changed-for-save
computation empty.  (Without the distinctness proviso the round-trip fails:
see the counterexample.) -/
theorem c1_changed_exact_and_roundtrip :
    (∀ sections : List Section,
        findChangedSections sections
          = sections.filter (fun s => s.edited_text ≠ s.saved_text))
    ∧ (∀ sections : List Section,
        sections.Pairwise (fun a b => a.element ≠ b.element) →
        findChangedSections ((save true sections).sections) = []) := by
  constructor
  · exact findChanged_eq_filter
  · intro sections hdist
    by_cases hch : changedSinceSave sections = false
    · simp only [save, if_pos hch]
      exact changedSinceSave_eq_false hch
    · simp only [save, if_neg hch, if_pos rfl]
      rw [findChanged_eq_filter]
      refine List.filter_eq_nil_iff.mpr ?_
      intro a ha
      have := setSaved_clean sections (pairwise_mem_eq hdist) a ha
      simpa using this

/-- C1 witness: a two-section registry with distinct elements and a pending
edit round-trips to an empty changed set after a successful save. -/
theorem c1_witness :
    findChangedSections ((save true [wSecA, wSecB]).sections) = [] :=
  c1_changed_exact_and_roundtrip.2 [wSecA, wSecB] (by decide)

/-- C1 counterexample: with two registry records sharing one element (as the
second-revision `run()` creates for nested editable tags), a successful
`save()` leaves a non-empty changed-for-save set, because `_setSaved`
overwrites the clean duplicate's `saved_text` with the edited duplicate's
`edited_text`. -/
theorem c1_counterexample :
    (save true [dupElemA, dupElemB]).fetched = true
    ∧ (save true [dupElemA, dupElemB]).errored = false
    ∧ findChangedSections ((save true [dupElemA, dupElemB]).sections) ≠ [] := by
  decide

/-- C2: on an all-clean registry the first-revision `save()` issues no request
and returns the registry untouched, but the second revision's
`_changedSinceSave` (its body replaced by `return true`, contradicting its
own doc comment) makes that revision's `save()` POST anyway — with an empty
changed-sections array — though the registry still comes back unchanged. -/
theorem c2_empty_save_behavior :
    changedSinceSave [cleanSec] = false
    ∧ findChangedSections [cleanSec] = []
    ∧ save true [cleanSec] = ⟨[cleanSec], false, false⟩
    ∧ (saveAlways true [cleanSec]).fetched = true
    ∧ (saveAlways true [cleanSec]).sections = [cleanSec] := by
  decide

/-- C3 (amended): a record registered by the `src/src/index.js` `run()` has
all three baselines equal to the captured content and is clean for both
dirty checks; a record registered by the `src/index.js` `run()` instead
starts with empty `edited_text` and `saved_text`, so it is clean for save
but dirty for publish whenever the captured content is non-empty. -/
theorem c3_fresh_section_baselines :
    ∀ (c p pg : String) (e : Nat),
      ((mkCmsElement c p pg e).edited_text = (mkCmsElement c p pg e).saved_text
        ∧ (mkCmsElement c p pg e).saved_text = (mkCmsElement c p pg e).original_text
        ∧ (mkCmsElement c p pg e).original_text = c)
      ∧ (changedSinceSave [mkCmsElement c p pg e] = false
        ∧ changedSincePublish [mkCmsElement c p pg e] = false)
      ∧ ((mkCmsElementOld c p pg).edited_text = ""
        ∧ (mkCmsElementOld c p pg).saved_text = ""
        ∧ (mkCmsElementOld c p pg).original_text = c
        ∧ changedSinceSave [mkCmsElementOld c p pg] = false
        ∧ (changedSincePublish [mkCmsElementOld c p pg] = true ↔ c ≠ "")) := by
  intro c p pg e
  refine ⟨⟨rfl, rfl, rfl⟩, ⟨?_, ?_⟩, rfl, rfl, rfl, ?_, ?_⟩
  · simp [changedSinceSave, mkCmsElement]
  · simp [changedSincePublish, mkCmsElement]
  · simp [changedSinceSave, mkCmsElementOld]
  · by_cases hc : c = ""
    · simp [changedSincePublish, mkCmsElementOld, hc]
    · simpa [changedSincePublish, mkCmsElementOld, hc] using Ne.symm hc

/-- C3 witness: instantiating the dirty-for-publish characterisation at a
non-empty content. -/
theorem c3_witness :
    changedSincePublish [mkCmsElementOld "hello" "p" "/"] = true :=
  ((c3_fresh_section_baselines "hello" "p" "/" 0).2.2.2.2.2.2).mpr (by decide)

/-- C3 counterexample: a section registered by the `src/index.js` `run()` for
an element with content `"hello"` violates
`editedText == savedText == originalText` and is reported dirty by the
publish check at registration time. -/
theorem c3_counterexample :
    (mkCmsElementOld "hello" "p" "/").saved_text
      ≠ (mkCmsElementOld "hello" "p" "/").original_text
    ∧ changedSincePublish [mkCmsElementOld "hello" "p" "/"] = true := by
  decide

/-- C4 (amended): the `src/src/index.js` `publish()` does promote the whole
registry on success — afterwards every section has
`original_text = saved_text` and the changed-for-publish check is empty.
(The `src/index.js` revision promotes only the response-named sections: see
the counterexample.) -/
theorem c4_publish_promotes_registry (sections : List Section) :
    (∀ s ∈ (publish true sections).sections, s.original_text = s.saved_text)
    ∧ changedSincePublish ((publish true sections).sections) = false := by
  by_cases hc : changedSincePublish sections = false
  · constructor
    · intro s hs
      simp only [publish, if_pos hc] at hs
      exact ((changedSincePublish_eq_false sections).mp hc s hs).symm
    · simp only [publish, if_pos hc]
      exact hc
  · constructor
    · intro s hs
      simp only [publish, if_neg hc, if_pos rfl, setPublished] at hs
      rcases List.mem_map.mp hs with ⟨t, _, rfl⟩
      rfl
    · simp only [publish, if_neg hc, if_pos rfl]
      refine (changedSincePublish_eq_false _).mpr ?_
      intro s hs
      simp only [setPublished] at hs
      rcases List.mem_map.mp hs with ⟨t, _, rfl⟩
      rfl

/-- C4 witness: a publish-dirty single-section registry is fully promoted by
a successful publish. -/
theorem c4_witness :
    pubSecDone.original_text = pubSecDone.saved_text
    ∧ changedSincePublish ((publish true [pubSec]).sections) = false :=
  ⟨(c4_publish_promotes_registry [pubSec]).1 pubSecDone (by decide),
   (c4_publish_promotes_registry [pubSec]).2⟩

/-- C4 counterexample: in the `src/index.js` revision, a section that is
publish-dirty (`saved_text != original_text`) but outside the POSTed subset
(`original_text = edited_text`, so the echoed response is empty) survives a
successful `publish()` unpromoted, and the changed-for-publish check stays
non-empty. -/
theorem c4_counterexample :
    ([pubCexSec].filter (fun s => s.original_text ≠ s.edited_text)) = []
    ∧ (publishOld true [] [pubCexSec]).fetched = true
    ∧ (publishOld true [] [pubCexSec]).errored = false
    ∧ (publishOld true [] [pubCexSec]).sections = [pubCexSec]
    ∧ changedSincePublish ((publishOld true [] [pubCexSec]).sections) = true := by
  decide

/-- C5 (amended): a failing response leaves `saved_text` and `original_text`
untouched in both revisions and runs the error path whenever a request was
made; the `src/src/index.js` `save()` leaves the registry completely
unchanged, while the `src/index.js` `save()` has already refreshed every
`edited_text` from the live document before the request (see the
counterexample). -/
theorem c5_failed_save_preserves :
    (∀ sections : List Section,
        (save false sections).sections = sections
        ∧ ((save false sections).fetched = true → (save false sections).errored = true))
    ∧ (∀ (dom : String → String) (resp : List RespSection) (sections : List Section),
        ((saveOld dom false resp sections).sections.map
            (fun s => (s.saved_text, s.original_text)))
          = sections.map (fun s => (s.saved_text, s.original_text))
        ∧ ((saveOld dom false resp sections).fetched = true →
            (saveOld dom false resp sections).errored = true)) := by
  constructor
  · intro sections
    constructor
    · by_cases hc : changedSinceSave sections = false <;> simp [save, hc]
    · by_cases hc : changedSinceSave sections = false <;> simp [save, hc]
  · intro dom resp sections
    constructor
    · by_cases hc : changedSinceSave sections = false
      · simp [saveOld, hc]
      · simp only [saveOld, if_neg hc, if_neg Bool.false_ne_true, List.map_map]
        rfl
    · by_cases hc : changedSinceSave sections = false <;> simp [saveOld, hc]

/-- C5 witness: the error path reports the failure on a concrete failed
save. -/
theorem c5_witness :
    (saveOld (fun _ => "B") false [] [dirtySec]).errored = true :=
  (c5_failed_save_preserves.2 (fun _ => "B") [] [dirtySec]).2 (by decide)

/-- C5 counterexample: in the `src/index.js` `save()`, a failing response does
surface an error, but the registry's `edited_text` HAS changed relative to
before the call — the pre-request flush copied the live document content
`"B"` over the stored `"a"` — so the dirty set is not exactly what it was
before the call. -/
theorem c5_counterexample :
    (saveOld (fun _ => "B") false [] [dirtySec]).fetched = true
    ∧ (saveOld (fun _ => "B") false [] [dirtySec]).errored = true
    ∧ ((saveOld (fun _ => "B") false [] [dirtySec]).sections.map (fun s => s.edited_text))
        ≠ [dirtySec].map (fun s => s.edited_text) := by
  decide

/-! ## Claims C6-C7: the selector-path resolver -/

/-- On the cyclic document the uncapped `part_001` climb never reaches its
`body` exit, whatever the fuel: the loop state is stuck on node 0. -/
theorem part001Climb_cyc_none :
    ∀ (fuel : Nat) (path : String), Part001.climb cycDoc fuel (some 0) path = none := by
  intro fuel
  induction fuel with
  | zero => intro path; rfl
  | succ n ih =>
    intro path
    show (if cycDoc.localName 0 = "body" then some path
        else Part001.climb cycDoc n (cycDoc.parent 0)
          (Part001.getSelector cycDoc 0 ++ " " ++ path)) = none
    rw [if_neg (by decide : ¬ cycDoc.localName 0 = "body")]
    exact ih _

/-- The capped climb of `src/index.js` executes at most `n + 1` loop
iterations when entered with `51 - i = n`. -/
theorem pathClimbAux_count_le (d : Doc) :
    ∀ (n : Nat) (parent : Option Nat) (path : String),
      (IndexJs.pathClimbAux d n parent path).2 ≤ n + 1 := by
  intro n
  induction n with
  | zero =>
    intro parent path
    cases parent with
    | none => exact Nat.zero_le _
    | some p =>
      simp only [IndexJs.pathClimbAux]
      split <;> simp
  | succ m ih =>
    intro parent path
    cases parent with
    | none => simp [IndexJs.pathClimbAux]
    | some p =>
      simp only [IndexJs.pathClimbAux]
      split
      · simp
      · simpa using Nat.succ_le_succ (ih (d.parent p) _)

/-- C6 (amended): the `src/index.js` climb is hard-capped — for every
document (cyclic parent chains included) and every starting state it
executes at most 52 loop iterations — but the `src/unnamed/part_001`
revision of `getSelectorPath` has no cap at all: on a document whose parent
chain is cyclic its climb never terminates (it is still running after any
number of iterations), rather than returning a truncated path. -/
theorem c6_cap_and_uncapped :
    (∀ (d : Doc) (parent : Option Nat) (path : String),
        (IndexJs.pathClimb d parent path).2 ≤ 52)
    ∧ (∀ fuel : Nat,
        Part001.climb cycDoc fuel (some 0) (Part001.getSelector cycDoc 1) = none) := by
  constructor
  · intro d parent path
    exact pathClimbAux_count_le d 51 parent path
  · intro fuel
    exact part001Climb_cyc_none fuel _

/-- C6 counterexample: on the cyclic document, the `part_001`
`getSelectorPath` has not produced any result after 520 iterations — ten
times the cap the spec describes — so the claim that every climb is stopped
by a hard iteration cap and returns a truncated path is false for that
revision. -/
theorem c6_counterexample :
    Part001.getSelectorPath cycDoc 520 1 = none := by
  show (if cycDoc.localName 1 = "html" then none
      else Part001.climb cycDoc 520 (cycDoc.parent 1) (Part001.getSelector cycDoc 1)) = none
  rw [if_neg (by decide : ¬ cycDoc.localName 1 = "html")]
  exact part001Climb_cyc_none 520 _

/-- `IndexJs.getSelector` only reads the class list through the splice of the
marker class, so erase-equal class maps give equal selectors. -/
theorem indexJs_getSelector_congr (d d2 : Doc)
    (hln : d.localName = d2.localName) (hid : d.id = d2.id)
    (hcl : ∀ v, (d.classes v).erase "cms-input-field"
      = (d2.classes v).erase "cms-input-field") :
    ∀ v, IndexJs.getSelector d v = IndexJs.getSelector d2 v := by
  intro v
  simp only [IndexJs.getSelector, hln, hid, hcl v]

/-- The capped climb only reads tag names, parents and single-level
selectors, so it is invariant across documents agreeing on those. -/
theorem pathClimbAux_congr (d d2 : Doc)
    (hln : d.localName = d2.localName) (hpar : d.parent = d2.parent)
    (hsel : ∀ v, IndexJs.getSelector d v = IndexJs.getSelector d2 v) :
    ∀ (n : Nat) (parent : Option Nat) (path : String),
      IndexJs.pathClimbAux d n parent path = IndexJs.pathClimbAux d2 n parent path := by
  intro n
  induction n with
  | zero =>
    intro parent path
    cases parent with
    | none => rfl
    | some p => simp only [IndexJs.pathClimbAux, hln, hpar, hsel p]
  | succ m ih =>
    intro parent path
    cases parent with
    | none => rfl
    | some p =>
      simp only [IndexJs.pathClimbAux, hln, hpar, hsel p]
      rw [ih]

/-- A list gains nothing from an appended marker under `erase` when the
marker was absent. -/
theorem erase_append_marker (m : String) :
    ∀ cs : List String, m ∉ cs → (cs ++ [m]).erase m = cs := by
  intro cs
  induction cs with
  | nil => intro _; simp
  | cons c rest ih =>
    intro h
    have hc : ¬ c = m := by
      intro he
      subst he
      exact h (List.mem_cons_self _ _)
    simp [List.cons_append, List.erase_cons, hc,
      ih (fun hm => h (List.mem_cons_of_mem _ hm))]

/-- C7 (amended): the `src/src/lib/util.js` `getSelector` excludes exactly
the transient marker class and keeps every other class verbatim, and the
`src/index.js` `getSelectorPath` computes identical paths on two documents
that differ only by presence of its marker class; the `part_000`
`getSelector`, however, drops the entire class list whenever the marker is
present (see the counterexample), so that revision is not stable mid-edit. -/
theorem c7_marker_class_excluded :
    (∀ (t idAttr : String) (cs : List String), "cms-editable" ∉ cs →
        UtilJs.getSelector t idAttr (cs ++ ["cms-editable"]) = UtilJs.getSelector t idAttr cs)
    ∧ (∀ (t : String) (cs : List String), t ≠ "" → "cms-editable" ∉ cs → cs ≠ [] →
        UtilJs.getSelector t "" (cs ++ ["cms-editable"])
          = some (t ++ "." ++ jsJoin "." cs ++ " "))
    ∧ (∀ (d d2 : Doc) (el : Nat),
        d.localName = d2.localName → d.id = d2.id → d.parent = d2.parent →
        d.children = d2.children →
        (∀ v, (d.classes v).erase "cms-input-field"
          = (d2.classes v).erase "cms-input-field") →
        IndexJs.getSelectorPath d el = IndexJs.getSelectorPath d2 el) := by
  refine ⟨?_, ?_, ?_⟩
  · intro t idAttr cs h
    simp only [UtilJs.getSelector, erase_append_marker "cms-editable" cs h,
      List.erase_of_not_mem h]
  · intro t cs ht hmem hne
    simp only [UtilJs.getSelector, erase_append_marker "cms-editable" cs hmem]
    rw [if_neg ht]
    simp [List.length_pos.mpr hne]
  · intro d d2 el hln hid hpar hch hcl
    have hsel := indexJs_getSelector_congr d d2 hln hid hcl
    have hclimb := pathClimbAux_congr d d2 hln hpar hsel
    simp only [IndexJs.getSelectorPath, IndexJs.pathClimb, hpar, hch, hln, hsel el, hclimb 51]

/-- C7 witness: on a concrete document, the path of the `hero` heading is the
same whether or not the editing marker class is currently applied. -/
theorem c7_witness :
    IndexJs.getSelectorPath wDocPlain 1 = IndexJs.getSelectorPath wDocMarked 1 :=
  c7_marker_class_excluded.2.2 wDocPlain wDocMarked 1 rfl rfl rfl rfl (by
    intro v
    by_cases hv : v = 1 <;> simp [wDocPlain, wDocMarked, hv])

/-- C7 counterexample: the `part_000` `getSelector` drops the `hero` class —
not just the marker — as soon as the marker class is present, so its
selectors differ mid-edit. -/
theorem c7_counterexample :
    Part000.getSelector "div" "" ["hero", "cms-input-field"] = some "div "
    ∧ Part000.getSelector "div" "" ["hero"] = some "div.hero "
    ∧ Part000.getSelector "div" "" ["hero", "cms-input-field"]
        ≠ Part000.getSelector "div" "" ["hero"] := by
  decide

/-! ## Claims C8-C10: registration uniqueness, shortcuts, lookups -/

/-- C8 (amended): `run()` performs no deduplication — it pushes exactly one
record per discovered element — and the registry's paths are pairwise
distinct exactly when the resolved top editable ancestors' selector paths
are; two discovered nodes resolving to the same top ancestor yield duplicate
records (see the counterexample). -/
theorem c8_register_no_dedup (d : Doc) (page : String) (els : List Nat) :
    (runRegister d page els).length = els.length
    ∧ ((els.reverse.map (fun el =>
          part001PathOf d (Part001.getTopParent d defaultTags 100 el))).Pairwise (· ≠ ·) →
        ((runRegister d page els).map (fun s => s.path)).Pairwise (· ≠ ·)) := by
  constructor
  · simp [runRegister]
  · intro h
    simpa [runRegister, List.map_map, Function.comp] using h

/-- C8 witness: two discovered elements with distinct top ancestors produce a
registry with pairwise-distinct paths. -/
theorem c8_witness :
    ((runRegister twoDoc "/" [1, 2]).map (fun s => s.path)).Pairwise (· ≠ ·) :=
  (c8_register_no_dedup twoDoc "/" [1, 2]).2 (by decide)

/-- C8 counterexample: on a document where an editable `a` is nested inside
an editable `p`, the second-revision `run()` resolves both discovered nodes
to the `p` and registers it twice — the registry holds two sections with the
same element and the same path. -/
theorem c8_counterexample :
    ¬ ((runRegister nestedDoc "/" [1, 2]).map (fun s => s.path)).Nodup
    ∧ ((runRegister nestedDoc "/" [1, 2]).map (fun s => s.element)) = [1, 1] := by
  decide

/-- A found shortcut is a member of the table and join-matches the combo. -/
theorem getShortcut_spec :
    ∀ (shortcuts : List Shortcut) (combo : List String) (sc : Shortcut),
      getShortcut shortcuts combo = some sc →
      sc ∈ shortcuts ∧ jsJoin " " sc.combo = jsJoin " " combo := by
  intro shortcuts
  induction shortcuts with
  | nil => intro combo sc h; cases h
  | cons x rest ih =>
    intro combo sc h
    by_cases hx : jsJoin " " x.combo = jsJoin " " combo
    · have hxs : x = sc := by simpa [getShortcut, hx] using h
      subst hxs
      exact ⟨List.mem_cons_self _ _, hx⟩
    · have h2 : getShortcut rest combo = some sc := by simpa [getShortcut, hx] using h
      obtain ⟨hmem, hj⟩ := ih combo sc h2
      exact ⟨List.mem_cons_of_mem _ hmem, hj⟩

/-- C9: the dispatcher fires the looked-up shortcut iff its combo
join-matches the event combo, the guard (editable target or global) holds,
and the event is not a key-held repeat; a firing event is consumed; a
non-global shortcut outside an editable region leaves the event untouched;
so does an event whose combo matches nothing. -/
theorem c9_shortcut_dispatch (shortcuts : List Shortcut) (e : KeyEvent) :
    (∀ sc : Shortcut, (handleShortcuts shortcuts e).fired = some sc →
        sc ∈ shortcuts
        ∧ jsJoin " " sc.combo = jsJoin " " (buildCombo e)
        ∧ (e.targetIsEditable = true ∨ sc.global = true)
        ∧ e.keyRepeat = false
        ∧ (handleShortcuts shortcuts e).consumed = true)
    ∧ (∀ sc : Shortcut, getShortcut shortcuts (buildCombo e) = some sc →
        (e.targetIsEditable = true ∨ sc.global = true) → e.keyRepeat = false →
        (handleShortcuts shortcuts e).fired = some sc
          ∧ (handleShortcuts shortcuts e).consumed = true)
    ∧ (∀ sc : Shortcut, getShortcut shortcuts (buildCombo e) = some sc →
        e.targetIsEditable = false → sc.global = false →
        handleShortcuts shortcuts e = ⟨none, false⟩)
    ∧ (getShortcut shortcuts (buildCombo e) = none →
        handleShortcuts shortcuts e = ⟨none, false⟩) := by
  refine ⟨?_, ?_, ?_, ?_⟩
  · intro sc hf
    cases hget : getShortcut shortcuts (buildCombo e) with
    | none => simp [handleShortcuts, hget] at hf
    | some sc0 =>
      simp only [handleShortcuts, hget] at hf
      by_cases hctx : (e.targetIsEditable || sc0.global) = true
      · rw [if_pos hctx] at hf
        by_cases hrep : e.keyRepeat = true
        · rw [if_pos hrep] at hf
          simp at hf
        · rw [if_neg hrep] at hf
          have hsc : sc0 = sc := by simpa using hf
          subst hsc
          obtain ⟨hmem, hj⟩ := getShortcut_spec shortcuts (buildCombo e) sc0 hget
          refine ⟨hmem, hj, by simpa using hctx, by simpa using hrep, ?_⟩
          simp only [handleShortcuts, hget]
          rw [if_pos hctx, if_neg hrep]
      · rw [if_neg hctx] at hf
        simp at hf
  · intro sc hget hctx hrep
    have hctx2 : (e.targetIsEditable || sc.global) = true := by simpa using hctx
    simp only [handleShortcuts, hget]
    rw [if_pos hctx2, if_neg (by simp [hrep])]
    exact ⟨rfl, rfl⟩
  · intro sc hget ht hg
    simp only [handleShortcuts, hget]
    rw [if_neg (by simp [ht, hg])]
  · intro hget
    simp only [handleShortcuts, hget]

/-- C9 witness: the non-global ctrl+b bold shortcut pressed outside an
editable region neither fires nor consumes the event, while inside an
editable region it fires. -/
theorem c9_witness :
    handleShortcuts [boldSc] ebOutside = ⟨none, false⟩
    ∧ (handleShortcuts [boldSc] ebInside).fired = some boldSc :=
  ⟨(c9_shortcut_dispatch [boldSc] ebOutside).2.2.1 boldSc (by decide) rfl rfl,
   ((c9_shortcut_dispatch [boldSc] ebInside).2.1 boldSc (by decide) (Or.inl rfl) rfl).1⟩

/-- `find?` distributes over list append, first list first. -/
theorem find_append_sections (q : Section → Bool) :
    ∀ l1 l2 : List Section,
      (l1 ++ l2).find? q = ((l1.find? q).orElse (fun _ => l2.find? q)) := by
  intro l1
  induction l1 with
  | nil => intro l2; simp [Option.orElse]
  | cons s rest ih =>
    intro l2
    cases hq : q s <;> simp [List.find?, hq, ih l2, Option.orElse]

/-- The overwrite-fold of `_findSectionByPath` computes the first match of
the reversed list, falling back to the accumulator. -/
theorem findByPath_foldl (p : String) :
    ∀ (l : List Section) (acc : Option Section),
      l.foldl (fun result s => if s.path = p then some s else result) acc
        = match l.reverse.find? (fun s => s.path = p) with
          | some s => some s
          | none => acc := by
  intro l
  induction l with
  | nil => intro acc; rfl
  | cons s rest ih =>
    intro acc
    rw [List.foldl_cons, ih, List.reverse_cons,
      find_append_sections (fun s => s.path = p) rest.reverse [s]]
    cases hr : rest.reverse.find? (fun s => s.path = p) with
    | some t => simp [Option.orElse]
    | none =>
      by_cases hs : s.path = p <;> simp [List.find?, hs, Option.orElse]

/-- C10: lookup by path returns the last section in registration order whose
path matches (the first of the reversed list), lookup by element returns the
first section whose element matches, and on a registry with a duplicated
path the two lookups resolve to different sections. -/
theorem c10_lookup_order :
    (∀ (sections : List Section) (p : String),
        findSectionByPath sections p = sections.reverse.find? (fun s => s.path = p))
    ∧ (∀ (sections : List Section) (el : Nat),
        findSection el sections = sections.find? (fun s => s.element = el))
    ∧ (findSectionByPath [secA, secB] "p" = some secB
        ∧ findSection 5 [secA, secB] = some secA
        ∧ secA ≠ secB) := by
  refine ⟨?_, ?_, by decide⟩
  · intro sections p
    rw [findSectionByPath, findByPath_foldl p sections none]
    cases hr : sections.reverse.find? (fun s => s.path = p) <;> rfl
  · intro sections el
    induction sections with
    | nil => rfl
    | cons s rest ih =>
      by_cases hs : s.element = el <;> simp [findSection, List.find?, hs, ih]
